import Mathlib

/-!
Shallow embedding of the Flask URL-shortener in `src/app.py` and proofs of
the specification's claims about it.

The two database tables (`User`, `URL`) are modelled as Lean lists in
insertion order.  Randomness (`random.choice`) is modelled by an explicit
supply of natural-number draws: each draw `i` selects `characters[i % 62]`,
so any character of the alphabet is reachable and nothing outside it is.
The external collaborators (werkzeug's `generate_password_hash` and
`check_password_hash`) are passed in as function parameters; the claims do
not depend on their values.
-/

namespace URLShortener

/-- Python's `string.ascii_letters`: lowercase then uppercase (app.py line 38). -/
def ascii_letters : String := "abcdefghijklmnopqrstuvwxyzABCDEFGHIJKLMNOPQRSTUVWXYZ"

/-- Python's `string.digits` (app.py line 38). -/
def digits : String := "0123456789"

/-- The 62-symbol alphabet `characters = string.ascii_letters + string.digits`
(app.py line 38). -/
def characters : List Char := (ascii_letters ++ digits).data

/-- Model of `random.choice(characters)` (app.py line 39): a draw `i` from the
randomness supply selects the character at index `i % len(characters)`, so the
result is always an element of `characters` and every element is reachable. -/
def randomChoice (i : Nat) : Char := characters.getD (i % characters.length) 'a'

/-- The `URL` model (app.py lines 26-31): `id` primary key, `original_url`
(`nullable=False`), `short_url` (`unique=True`), `clicks` (default 0),
`user_id` foreign key. -/
structure URL where
  id : Nat
  original_url : String
  short_url : String
  clicks : Nat
  user_id : Nat
deriving DecidableEq, Repr, Inhabited

/-- The `User` model (app.py lines 20-24): `id` primary key, `email`
(`unique=True`), `password` hash. -/
structure User where
  id : Nat
  email : String
  password : String
deriving DecidableEq, Repr, Inhabited

/-- `generate_short_url` (app.py lines 37-42): build a candidate from six
`random.choice(characters)` draws; if some record already has that
`short_url`, recurse on the rest of the randomness supply; otherwise return
the candidate.  The source recursion is unbounded; the finite draw supply is
the only modelling artifact (`none` means the supply ran out, a case the
source, with an endless random stream, never reaches). -/
def generate_short_url (store : List URL) : List Nat → Option String
  | d1 :: d2 :: d3 :: d4 :: d5 :: d6 :: rest =>
    let short_url : String :=
      ⟨[randomChoice d1, randomChoice d2, randomChoice d3,
        randomChoice d4, randomChoice d5, randomChoice d6]⟩
    if store.any (fun r => r.short_url == short_url) then
      generate_short_url store rest
    else
      some short_url
  | _ => none

/-- `URL.query.filter_by(short_url=code).first()` (app.py lines 40 and 102):
the first record, in insertion order, whose `short_url` equals `code`. -/
def first_matching (store : List URL) (code : String) : Option URL :=
  store.find? (fun r => r.short_url == code)

/-- The store update performed by `url.clicks += 1; db.session.commit()`
(app.py lines 103-104): the first record matching `code` — the row
`first_or_404` loaded — gets its click count raised by one; every other
record is untouched. -/
def increment_click : List URL → String → List URL
  | [], _ => []
  | r :: rest, code =>
    if r.short_url == code then { r with clicks := r.clicks + 1 } :: rest
    else r :: increment_click rest code

/-- Outcome of the redirect endpoint: `first_or_404` aborts with HTTP 404 when
no record matches (app.py line 102); otherwise flask's `redirect` issues its
default 302 status to the stored location (app.py line 105). -/
inductive RedirectResponse
  | notFound404
  | redirect302 (location : String)
deriving DecidableEq, Repr

/-- `redirect_to_url` (app.py lines 100-105): look the code up with
`first_or_404`; on a miss the store is left unchanged and a 404 is returned;
on a hit the matched record's click count is incremented and a 302 redirect
to its `original_url` is returned. -/
def redirect_to_url (store : List URL) (short_url : String) : List URL × RedirectResponse :=
  match first_matching store short_url with
  | none => (store, .notFound404)
  | some u => (increment_click store short_url, .redirect302 u.original_url)

/-- Outcome of the dashboard POST branch (app.py lines 88-95).
`createdRedirect` is the success path (flash and redirect to `/dashboard`);
`integrityError` is `db.session.commit()` raising on a violated column
constraint (`original_url` is `nullable=False`, `short_url` is `unique=True`,
app.py lines 28-29) — an unhandled 500, not a flash; `randomnessExhausted`
is the model artifact of the finite draw supply. -/
inductive DashResponse
  | createdRedirect
  | integrityError
  | randomnessExhausted
deriving DecidableEq, Repr

/-- The dashboard POST branch (app.py lines 88-95): read the `original_url`
form field (`request.form.get` yields `none` when the field is missing),
generate a code, build the new record — `clicks` takes its column default 0,
`user_id` the current user — and commit.  The commit enforces the `URL`
table's constraints: a `none` `original_url` violates `nullable=False` and a
duplicate code violates `unique=True`; either way the insert is rejected and
the table is unchanged.  There is no validation of the URL string itself. -/
def dashboard_post (urls : List URL) (nextId uid : Nat) (formUrl : Option String)
    (draws : List Nat) : List URL × DashResponse :=
  match generate_short_url urls draws with
  | none => (urls, .randomnessExhausted)
  | some code =>
    match formUrl with
    | none => (urls, .integrityError)
    | some orig =>
      if urls.any (fun r => r.short_url == code) then (urls, .integrityError)
      else (urls ++ [⟨nextId, orig, code, 0, uid⟩], .createdRedirect)

/-- The dashboard GET branch (app.py lines 97-98):
`URL.query.filter_by(user_id=current_user.id).all()`, the current user's
records in insertion order. -/
def dashboard_get (urls : List URL) (uid : Nat) : List URL :=
  urls.filter (fun r => r.user_id == uid)

/-- Outcome of the register POST branch (app.py lines 51-65): a duplicate
email flashes and redirects back to `/register`; success inserts the user and
redirects to `/login`. -/
inductive RegisterResponse
  | duplicateEmailFlash
  | redirectLogin
deriving DecidableEq, Repr

/-- The register POST branch (app.py lines 51-65): look the email up; if a
user already has it, flash and redirect back to the form with the table
unchanged; otherwise insert a new user whose password is the hash of the
submitted one (`generate_password_hash`, an external collaborator passed in
as `phash`). -/
def register (users : List User) (nextId : Nat) (email password : String)
    (phash : String → String) : List User × RegisterResponse :=
  match users.find? (fun u => u.email == email) with
  | some _ => (users, .duplicateEmailFlash)
  | none => (users ++ [⟨nextId, email, phash password⟩], .redirectLogin)

/-- Outcome of the login POST branch (app.py lines 71-81). -/
inductive LoginResponse
  | redirectDashboard
  | invalidFlash
deriving DecidableEq, Repr

/-- The login POST branch (app.py lines 71-81): find the user by email and
check the password hash (`check_password_hash`, external collaborator `chk`);
neither branch writes to either table. -/
def login (users : List User) (email password : String)
    (chk : String → String → Bool) : LoginResponse :=
  match users.find? (fun u => u.email == email) with
  | some u => if chk u.password password then .redirectDashboard else .invalidFlash
  | none => .invalidFlash

/-- The persistent state: the two tables of app.py, each in insertion order. -/
structure AppState where
  users : List User
  urls : List URL
deriving DecidableEq, Repr

/-- The register handler's effect on the persistent state: only the user
table can change (app.py lines 49-67). -/
def registerHandler (s : AppState) (nextId : Nat) (email password : String)
    (phash : String → String) : AppState × RegisterResponse :=
  let p := register s.users nextId email password phash
  ({ s with users := p.1 }, p.2)

/-- The login handler's effect on the persistent state: none — `login_user`
only touches the session (app.py lines 69-83). -/
def loginHandler (s : AppState) (email password : String)
    (chk : String → String → Bool) : AppState × LoginResponse :=
  (s, login s.users email password chk)

/-- The logout handler (app.py lines 107-111): `logout_user` only touches the
session; both tables are unchanged. -/
def logoutHandler (s : AppState) : AppState := s

/-- State of N in-flight redirect requests against the same store:
`saved i` is the `url.clicks` value request `i` loaded when line 102's SELECT
ran for it, `none` while it has not run yet. -/
structure ConcState where
  store : List URL
  saved : List (Option Nat)
deriving DecidableEq, Repr

/-- One scheduler step of an in-flight redirect: request `i` either performs
line 102's read (loading the current click count of the matched row) or
lines 103-104's write (an UPDATE storing the absolute value
`saved + 1` it computed from its earlier read). -/
inductive IncAction
  | read (i : Nat)
  | write (i : Nat)
deriving DecidableEq, Repr

/-- The UPDATE emitted for `url.clicks += 1` (app.py lines 103-104): store the
absolute value `v` into the first record matching `code`. -/
def set_clicks : List URL → String → Nat → List URL
  | [], _, _ => []
  | r :: rest, code, v =>
    if r.short_url == code then { r with clicks := v } :: rest
    else r :: set_clicks rest code v

/-- Execute one action of one in-flight redirect request. A write by a
request that has not read yet is a no-op (no well-formed schedule contains
one). -/
def concStep (code : String) (s : ConcState) : IncAction → ConcState
  | .read i =>
    { s with saved := s.saved.set i ((first_matching s.store code).map (fun u => u.clicks)) }
  | .write i =>
    match s.saved.getD i none with
    | none => s
    | some v => { s with store := set_clicks s.store code (v + 1) }

/-- Run a schedule: an interleaving of the read and write halves of several
concurrent redirect requests, per the spec's scheduling model (each request
may run concurrently with others). -/
def runSchedule (code : String) (s : ConcState) : List IncAction → ConcState
  | [] => s
  | a :: rest => runSchedule code (concStep code s a) rest

/-- A one-record store used to instantiate several theorems. -/
def demoStore : List URL := [⟨1, "https://example.com", "aaaaaa", 0, 1⟩]

/-! ## Helper lemmas -/

theorem randomChoice_mem (i : Nat) : randomChoice i ∈ characters := by
  have h : i % characters.length < characters.length := Nat.mod_lt _ (by decide)
  unfold randomChoice
  rw [List.getD_eq_getElem _ _ h]
  exact List.getElem_mem _

theorem generate_some_spec (store : List URL) :
    ∀ (draws : List Nat) (code : String), generate_short_url store draws = some code →
      code.length = 6 ∧ (∀ c ∈ code.data, c ∈ characters) ∧ ∀ r ∈ store, r.short_url ≠ code := by
  intro draws
  induction draws using generate_short_url.induct store with
  | case1 d1 d2 d3 d4 d5 d6 rest su hcoll ih =>
    intro code h
    have hsu : su = ⟨[randomChoice d1, randomChoice d2, randomChoice d3,
        randomChoice d4, randomChoice d5, randomChoice d6]⟩ := rfl
    rw [hsu] at hcoll
    simp only [generate_short_url] at h
    rw [if_pos hcoll] at h
    exact ih code h
  | case2 d1 d2 d3 d4 d5 d6 rest su hncoll =>
    intro code h
    have hsu : su = ⟨[randomChoice d1, randomChoice d2, randomChoice d3,
        randomChoice d4, randomChoice d5, randomChoice d6]⟩ := rfl
    rw [hsu] at hncoll
    simp only [generate_short_url] at h
    rw [if_neg hncoll] at h
    obtain rfl : _ = code := Option.some.inj h
    refine ⟨rfl, ?_, ?_⟩
    · intro c hc
      have hc2 : c ∈ [randomChoice d1, randomChoice d2, randomChoice d3,
          randomChoice d4, randomChoice d5, randomChoice d6] := hc
      simp only [List.mem_cons, List.not_mem_nil, or_false] at hc2
      rcases hc2 with rfl | rfl | rfl | rfl | rfl | rfl <;> exact randomChoice_mem _
    · intro r hr heq
      exact hncoll (List.any_eq_true.mpr ⟨r, hr, by rw [heq]; exact beq_self_eq_true _⟩)
  | case3 t ht =>
    intro code h
    rcases t with _ | ⟨a, _ | ⟨b, _ | ⟨c, _ | ⟨d, _ | ⟨e, _ | ⟨f, rest⟩⟩⟩⟩⟩⟩ <;>
      first
        | exact absurd rfl (ht _ _ _ _ _ _ _)
        | simp [generate_short_url] at h

theorem increment_click_first_matching (code : String) :
    ∀ (store : List URL) (u : URL), first_matching store code = some u →
      first_matching (increment_click store code) code = some { u with clicks := u.clicks + 1 } := by
  intro store
  induction store with
  | nil => intro u h; simp [first_matching] at h
  | cons r rest ih =>
    intro u h
    simp only [increment_click, first_matching] at h ⊢
    by_cases hr : (r.short_url == code) = true
    · rw [if_pos hr]
      rw [@List.find?_cons_of_pos URL (fun x => x.short_url == code) r rest hr] at h
      obtain rfl := Option.some.inj h
      exact @List.find?_cons_of_pos URL (fun x => x.short_url == code)
        { r with clicks := r.clicks + 1 } rest hr
    · rw [if_neg hr]
      rw [@List.find?_cons_of_neg URL (fun x => x.short_url == code) r rest hr] at h
      rw [@List.find?_cons_of_neg URL (fun x => x.short_url == code) r
        (increment_click rest code) hr]
      exact ih u h

theorem increment_click_getD (code : String) :
    ∀ (store : List URL) (i : Nat),
      (increment_click store code).getD i default = store.getD i default ∨
      (increment_click store code).getD i default
        = { store.getD i default with clicks := (store.getD i default).clicks + 1 } := by
  intro store
  induction store with
  | nil => intro i; left; simp [increment_click]
  | cons r rest ih =>
    intro i
    simp only [increment_click]
    by_cases hr : (r.short_url == code) = true
    · rw [if_pos hr]
      cases i with
      | zero => right; simp [List.getD_cons_zero]
      | succ j => left; simp [List.getD_cons_succ]
    · rw [if_neg hr]
      cases i with
      | zero => left; simp [List.getD_cons_zero]
      | succ j => simpa [List.getD_cons_succ] using ih j

theorem increment_click_map_short_url (code : String) :
    ∀ (store : List URL),
      (increment_click store code).map (fun r => r.short_url)
        = store.map (fun r => r.short_url) := by
  intro store
  induction store with
  | nil => simp [increment_click]
  | cons r rest ih =>
    simp only [increment_click]
    by_cases hr : (r.short_url == code) = true
    · rw [if_pos hr]; simp
    · rw [if_neg hr]; simp [ih]

theorem increment_click_length (code : String) :
    ∀ (store : List URL), (increment_click store code).length = store.length := by
  intro store
  induction store with
  | nil => rfl
  | cons r rest ih =>
    simp only [increment_click]
    by_cases hr : (r.short_url == code) = true
    · rw [if_pos hr]; simp
    · rw [if_neg hr]; simp [ih]

theorem generate_replicate_zero_skip (store : List URL)
    (hcollide : (store.any (fun r => r.short_url == "aaaaaa")) = true) :
    ∀ (n : Nat) (rest : List Nat),
      generate_short_url store (List.replicate (6 * n) 0 ++ rest)
        = generate_short_url store rest := by
  intro n
  induction n with
  | zero => intro rest; simp
  | succ m ih =>
    intro rest
    rw [show 6 * (m + 1) = (6 * m + 5) + 1 by omega]
    simp only [List.replicate_succ]
    simp only [List.cons_append, generate_short_url]
    have ha : (⟨[randomChoice 0, randomChoice 0, randomChoice 0, randomChoice 0,
        randomChoice 0, randomChoice 0]⟩ : String) = "aaaaaa" := by decide
    rw [ha, if_pos hcollide]
    exact ih rest

theorem generate_fresh_b (store : List URL)
    (hfree : (store.any (fun r => r.short_url == "baaaaa")) = false) :
    generate_short_url store [1, 0, 0, 0, 0, 0] = some "baaaaa" := by
  simp only [generate_short_url]
  have hb : (⟨[randomChoice 1, randomChoice 0, randomChoice 0, randomChoice 0,
      randomChoice 0, randomChoice 0]⟩ : String) = "baaaaa" := by decide
  rw [hb, if_neg (by simp [hfree])]

/-! ## Claim theorems -/

/-- Claim C1: for every short code, resolving against a store with no
matching record yields the 404 outcome and leaves the store unchanged; on a
store containing a matching record, the response is a 302 redirect to that
record's `original_url` and that record's click count is incremented. -/
theorem resolve_spec (store : List URL) (code : String) :
    (first_matching store code = none → redirect_to_url store code = (store, .notFound404)) ∧
    (∀ u, first_matching store code = some u →
      (redirect_to_url store code).2 = .redirect302 u.original_url ∧
      (redirect_to_url store code).1 = increment_click store code ∧
      first_matching (redirect_to_url store code).1 code
        = some { u with clicks := u.clicks + 1 }) := by
  constructor
  · intro h
    simp [redirect_to_url, h]
  · intro u h
    have h1 : redirect_to_url store code
        = (increment_click store code, .redirect302 u.original_url) := by
      simp [redirect_to_url, h]
    rw [h1]
    exact ⟨rfl, rfl, increment_click_first_matching code store u h⟩

/-- Claim C2: every code the generator returns has exactly 6 characters, all
drawn from the 62-symbol alphabet, and at the moment of the generator's store
check no existing record carries that code. -/
theorem generated_code_wellformed (store : List URL) (draws : List Nat) (code : String)
    (h : generate_short_url store draws = some code) :
    code.length = 6 ∧ (∀ c ∈ code.data, c ∈ characters) ∧ ∀ r ∈ store, r.short_url ≠ code :=
  generate_some_spec store draws code h

/-- Witness for C2: on the empty store the draws 0..5 produce the code
"abcdef". -/
theorem generated_code_wellformed_witness :
    ("abcdef" : String).length = 6 ∧ (∀ c ∈ ("abcdef" : String).data, c ∈ characters) ∧
      ∀ r ∈ ([] : List URL), r.short_url ≠ "abcdef" :=
  generated_code_wellformed [] [0, 1, 2, 3, 4, 5] "abcdef" (by decide)

/-- Claim C3: starting from a URL table with pairwise distinct short codes,
every operation preserves that uniqueness: create does so through the store's
own unique-constraint check at commit (not only the generator's pre-check),
resolve preserves codes, listing filters, and register, login and logout do
not touch the URL table at all. -/
theorem short_code_unique_preserved (urls : List URL)
    (h : (urls.map (fun r => r.short_url)).Nodup) :
    (∀ nextId uid formUrl draws,
       (((dashboard_post urls nextId uid formUrl draws).1).map (fun r => r.short_url)).Nodup) ∧
    (∀ code, (((redirect_to_url urls code).1).map (fun r => r.short_url)).Nodup) ∧
    (∀ uid, ((dashboard_get urls uid).map (fun r => r.short_url)).Nodup) ∧
    (∀ users nextId email password phash,
       ((registerHandler ⟨users, urls⟩ nextId email password phash).1).urls = urls) ∧
    (∀ users email password chk,
       ((loginHandler ⟨users, urls⟩ email password chk).1).urls = urls) ∧
    (∀ users, (logoutHandler ⟨users, urls⟩).urls = urls) := by
  refine ⟨?_, ?_, ?_, fun _ _ _ _ _ => rfl, fun _ _ _ _ => rfl, fun _ => rfl⟩
  · intro nextId uid formUrl draws
    cases hg : generate_short_url urls draws with
    | none => simp only [dashboard_post, hg]; exact h
    | some code =>
      cases formUrl with
      | none => simp only [dashboard_post, hg]; exact h
      | some orig =>
        by_cases ha : (urls.any (fun r => r.short_url == code)) = true
        · simp only [dashboard_post, hg, if_pos ha]; exact h
        · simp only [dashboard_post, hg, if_neg ha]
          rw [List.map_append, List.nodup_append]
          refine ⟨h, by simp, ?_⟩
          intro a ha1 ha2
          simp only [List.map_cons, List.map_nil, List.mem_singleton] at ha2
          subst ha2
          rw [List.mem_map] at ha1
          obtain ⟨r, hr, hrc⟩ := ha1
          exact ha (List.any_eq_true.mpr ⟨r, hr, by rw [hrc]; exact beq_self_eq_true _⟩)
  · intro code
    cases hf : first_matching urls code with
    | none => simp only [redirect_to_url, hf]; exact h
    | some u =>
      simp only [redirect_to_url, hf]
      rw [increment_click_map_short_url]
      exact h
  · intro uid
    exact ((List.filter_sublist urls).map _).nodup h

/-- Witness for C3: the invariant holds and is preserved on the one-record
demo store. -/
theorem short_code_unique_preserved_witness :
    (∀ nextId uid formUrl draws,
       (((dashboard_post demoStore nextId uid formUrl draws).1).map (fun r => r.short_url)).Nodup) ∧
    (∀ code, (((redirect_to_url demoStore code).1).map (fun r => r.short_url)).Nodup) ∧
    (∀ uid, ((dashboard_get demoStore uid).map (fun r => r.short_url)).Nodup) ∧
    (∀ users nextId email password phash,
       ((registerHandler ⟨users, demoStore⟩ nextId email password phash).1).urls = demoStore) ∧
    (∀ users email password chk,
       ((loginHandler ⟨users, demoStore⟩ email password chk).1).urls = demoStore) ∧
    (∀ users, (logoutHandler ⟨users, demoStore⟩).urls = demoStore) :=
  short_code_unique_preserved demoStore (by decide)

/-- Claim C4 as amended: the source bounds nothing.  For every retry count
`n`, an execution whose first `n` candidates all collide with an existing
record still returns the next fresh candidate successfully; there is no retry
budget and no failure outcome — generation just recurses until a candidate is
free. -/
theorem retries_unbounded (store : List URL)
    (hcollide : (store.any (fun r => r.short_url == "aaaaaa")) = true)
    (hfree : (store.any (fun r => r.short_url == "baaaaa")) = false) :
    ∀ n : Nat, generate_short_url store (List.replicate (6 * n) 0 ++ [1, 0, 0, 0, 0, 0])
      = some "baaaaa" := by
  intro n
  rw [generate_replicate_zero_skip store hcollide n]
  exact generate_fresh_b store hfree

/-- Witness for C4's amended claim: 101 colliding candidates in a row, then
success. -/
theorem retries_unbounded_witness :
    generate_short_url demoStore (List.replicate (6 * 101) 0 ++ [1, 0, 0, 0, 0, 0])
      = some "baaaaa" :=
  retries_unbounded demoStore (by decide) (by decide) 101

/-- Counterexample to C4 as stated: an execution that collides 101 times —
past the claimed retry bound of 100 — does not fail with any
GenerationExhausted error; it keeps recursing and returns the 102nd candidate
successfully. -/
theorem generation_retry_beyond_100_succeeds :
    generate_short_url demoStore (List.replicate 606 0 ++ [1, 0, 0, 0, 0, 0])
      = some "baaaaa" := by
  rw [show (606 : Nat) = 6 * 101 by norm_num]
  rw [generate_replicate_zero_skip demoStore (by decide) 101]
  exact generate_fresh_b demoStore (by decide)

/-- Claim C5: the code's increment is a non-atomic read-modify-write, so two
concurrent resolves of the same code can interleave read-read-write-write and
lose an update: the final count is pre + 1, not pre + 2 as the claim demands.
The serialized schedule of the same two requests does give pre + 2. -/
theorem lost_update_interleaving :
    (runSchedule "aaaaaa" ⟨demoStore, [none, none]⟩
        [.read 0, .read 1, .write 0, .write 1]).store
      = [⟨1, "https://example.com", "aaaaaa", 1, 1⟩] ∧
    (runSchedule "aaaaaa" ⟨demoStore, [none, none]⟩
        [.read 0, .write 0, .read 1, .write 1]).store
      = [⟨1, "https://example.com", "aaaaaa", 2, 1⟩] := by
  constructor <;> rfl

/-- Claim C6: creating a short URL appends a record with click count 0, the
submitted URL, the submitting user as owner and a fresh unique 6-character
code; resolving that code immediately afterwards redirects to the submitted
URL and raises the count to 1. -/
theorem create_then_resolve (urls : List URL) (nextId uid : Nat) (orig : String)
    (draws : List Nat) (code : String)
    (hgen : generate_short_url urls draws = some code) :
    dashboard_post urls nextId uid (some orig) draws
      = (urls ++ [⟨nextId, orig, code, 0, uid⟩], .createdRedirect) ∧
    code.length = 6 ∧
    (∀ r ∈ urls, r.short_url ≠ code) ∧
    (redirect_to_url (urls ++ [⟨nextId, orig, code, 0, uid⟩]) code).2
      = .redirect302 orig ∧
    first_matching (redirect_to_url (urls ++ [⟨nextId, orig, code, 0, uid⟩]) code).1 code
      = some ⟨nextId, orig, code, 1, uid⟩ := by
  obtain ⟨hlen, hchars, hfresh⟩ := generate_some_spec urls draws code hgen
  have hany : ¬ (urls.any (fun r => r.short_url == code)) = true := by
    rw [List.any_eq_true]
    rintro ⟨r, hr, hrc⟩
    exact hfresh r hr (by simpa using hrc)
  have hfind : first_matching (urls ++ [⟨nextId, orig, code, 0, uid⟩]) code
      = some ⟨nextId, orig, code, 0, uid⟩ := by
    unfold first_matching
    rw [List.find?_append]
    have h1 : urls.find? (fun r => r.short_url == code) = none := by
      rw [List.find?_eq_none]
      intro r hr
      simpa using hfresh r hr
    rw [h1]
    simp
  refine ⟨?_, hlen, hfresh, ?_, ?_⟩
  · simp only [dashboard_post, hgen, if_neg hany]
  · simp only [redirect_to_url, hfind]
  · simp only [redirect_to_url, hfind]
    exact increment_click_first_matching code (urls ++ [⟨nextId, orig, code, 0, uid⟩]) _ hfind

/-- Witness for C6: user 7 creates `https://example.com` on an empty store
with draws 0..5; the record gets code "abcdef", count 0, and resolving bumps
it to 1. -/
theorem create_then_resolve_witness :
    dashboard_post [] 1 7 (some "https://example.com") [0, 1, 2, 3, 4, 5]
      = ([⟨1, "https://example.com", "abcdef", 0, 7⟩], .createdRedirect) ∧
    ("abcdef" : String).length = 6 ∧
    (∀ r ∈ ([] : List URL), r.short_url ≠ "abcdef") ∧
    (redirect_to_url [⟨1, "https://example.com", "abcdef", 0, 7⟩] "abcdef").2
      = .redirect302 "https://example.com" ∧
    first_matching
        (redirect_to_url [⟨1, "https://example.com", "abcdef", 0, 7⟩] "abcdef").1 "abcdef"
      = some ⟨1, "https://example.com", "abcdef", 1, 7⟩ :=
  create_then_resolve [] 1 7 "https://example.com" [0, 1, 2, 3, 4, 5] "abcdef" (by decide)

/-- Claim C7: click counts are changed only by the redirect handler.
Register, login and logout leave the URL table untouched, create only
appends, and a resolve changes each record either not at all or by raising
exactly its click count by one — so no click count ever decreases. -/
theorem clicks_frame_and_monotonic :
    (∀ s nextId email password phash,
       ((registerHandler s nextId email password phash).1).urls = s.urls) ∧
    (∀ s email password chk, ((loginHandler s email password chk).1).urls = s.urls) ∧
    (∀ s, (logoutHandler s).urls = s.urls) ∧
    (∀ urls nextId uid formUrl draws,
       ∃ t, (dashboard_post urls nextId uid formUrl draws).1 = urls ++ t) ∧
    (∀ store code i,
       ((redirect_to_url store code).1).getD i default = store.getD i default ∨
       ((redirect_to_url store code).1).getD i default
         = { store.getD i default with clicks := (store.getD i default).clicks + 1 }) ∧
    (∀ store code i,
       (store.getD i default).clicks ≤ (((redirect_to_url store code).1).getD i default).clicks) := by
  have hred : ∀ (store : List URL) (code : String) (i : Nat),
      ((redirect_to_url store code).1).getD i default = store.getD i default ∨
      ((redirect_to_url store code).1).getD i default
        = { store.getD i default with clicks := (store.getD i default).clicks + 1 } := by
    intro store code i
    cases hf : first_matching store code with
    | none => left; simp only [redirect_to_url, hf]
    | some u =>
      simp only [redirect_to_url, hf]
      exact increment_click_getD code store i
  refine ⟨fun s _ _ _ _ => rfl, fun s _ _ _ => rfl, fun s => rfl, ?_, hred, ?_⟩
  · intro urls nextId uid formUrl draws
    cases hg : generate_short_url urls draws with
    | none => exact ⟨[], by simp only [dashboard_post, hg]; simp⟩
    | some code =>
      cases formUrl with
      | none => exact ⟨[], by simp only [dashboard_post, hg]; simp⟩
      | some orig =>
        by_cases ha : (urls.any (fun r => r.short_url == code)) = true
        · exact ⟨[], by simp only [dashboard_post, hg, if_pos ha]; simp⟩
        · exact ⟨[⟨nextId, orig, code, 0, uid⟩],
            by simp only [dashboard_post, hg, if_neg ha]⟩
  · intro store code i
    rcases hred store code i with heq | heq <;> rw [heq]
    all_goals
      first
        | exact Nat.le_refl _
        | exact Nat.le_succ _

/-- Claim C8: registering with an email an existing user already has flashes
a duplicate-email message, redirects back to the form, and leaves the user
table exactly as it was. -/
theorem register_duplicate_email (users : List User) (nextId : Nat)
    (email password : String) (phash : String → String) (u : User)
    (hu : u ∈ users) (he : u.email = email) :
    register users nextId email password phash = (users, .duplicateEmailFlash) := by
  have hsome : (users.find? (fun x => x.email == email)).isSome = true := by
    rw [List.find?_isSome]
    exact ⟨u, hu, by rw [he]; exact beq_self_eq_true _⟩
  cases hfind : users.find? (fun x => x.email == email) with
  | none => rw [hfind] at hsome; simp at hsome
  | some v => simp only [register, hfind]

/-- Witness for C8: re-registering the already-present address leaves the
one-user table unchanged. -/
theorem register_duplicate_email_witness :
    register [⟨1, "a@example.com", "hash"⟩] 2 "a@example.com" "pw" (fun s => s)
      = ([⟨1, "a@example.com", "hash"⟩], .duplicateEmailFlash) :=
  register_duplicate_email [⟨1, "a@example.com", "hash"⟩] 2 "a@example.com" "pw"
    (fun s => s) ⟨1, "a@example.com", "hash"⟩ (by decide) rfl

/-- Claim C9: the dashboard listing returns exactly the requesting owner's
records, as a subsequence of the store (hence in insertion order), and an
owner with no records gets the empty list, not an error. -/
theorem list_by_owner_spec (urls : List URL) (uid : Nat) :
    (∀ r, r ∈ dashboard_get urls uid ↔ (r ∈ urls ∧ r.user_id = uid)) ∧
    (dashboard_get urls uid).Sublist urls ∧
    ((∀ r ∈ urls, r.user_id ≠ uid) → dashboard_get urls uid = []) := by
  refine ⟨?_, List.filter_sublist urls, ?_⟩
  · intro r
    simp [dashboard_get, List.mem_filter]
  · intro hnone
    rw [dashboard_get, List.filter_eq_nil_iff]
    intro r hr
    simpa using hnone r hr

/-- Counterexample to C10 as stated: a creation request whose `original_url`
is the empty string does not fail with any validation error — a record with
an empty URL is inserted and the success flash is returned. -/
theorem empty_url_record_inserted :
    dashboard_post [] 1 1 (some "") [0, 1, 2, 3, 4, 5]
      = ([⟨1, "", "abcdef", 0, 1⟩], .createdRedirect) := by decide

/-- Claim C10 as amended: the handler performs no validation of
`original_url`.  A missing field (`None`) fails only at commit, via the
store's NOT NULL constraint (an unhandled 500, not a ValidationError), and
inserts no record; any string value — empty or malformed included — is
accepted and a record with it is inserted. -/
theorem no_validation_on_original_url (urls : List URL) (nextId uid : Nat)
    (draws : List Nat) (code : String) (orig : String)
    (hgen : generate_short_url urls draws = some code) :
    dashboard_post urls nextId uid none draws = (urls, .integrityError) ∧
    dashboard_post urls nextId uid (some orig) draws
      = (urls ++ [⟨nextId, orig, code, 0, uid⟩], .createdRedirect) := by
  obtain ⟨-, -, hfresh⟩ := generate_some_spec urls draws code hgen
  have hany : ¬ (urls.any (fun r => r.short_url == code)) = true := by
    rw [List.any_eq_true]
    rintro ⟨r, hr, hrc⟩
    exact hfresh r hr (by simpa using hrc)
  constructor
  · simp only [dashboard_post, hgen]
  · simp only [dashboard_post, hgen, if_neg hany]

/-- Witness for C10's amended claim: a missing field inserts nothing and
errors at commit; the unvalidated string "notaurl" is inserted as given. -/
theorem no_validation_on_original_url_witness :
    dashboard_post [] 1 1 none [0, 1, 2, 3, 4, 5] = ([], .integrityError) ∧
    dashboard_post [] 1 1 (some "notaurl") [0, 1, 2, 3, 4, 5]
      = ([⟨1, "notaurl", "abcdef", 0, 1⟩], .createdRedirect) :=
  no_validation_on_original_url [] 1 1 [0, 1, 2, 3, 4, 5] "abcdef" "notaurl" (by decide)

end URLShortener
